import Mathlib

/-!
Verification of the durable work queue and job pipeline orchestrator of
poomer-discord-vmax (src/poomer-discord-vmax.cpp).

The SQLite table `work_queue` is modelled as a `List Row` (in rowid order:
`INTEGER PRIMARY KEY AUTOINCREMENT` appends with a fresh, strictly larger id).
Each `WorkQueue` method runs under the single `queue_mutex`, so every store
operation is modelled as a pure function from the store (or the whole queue
state) to its result.  `queue_condition.notify_one()` calls are modelled as
returned booleans where a claim mentions them.
-/

namespace PoomerVmax

/-- The `status` column: `'pending' | 'processing' | 'completed'`
(failed-beyond-retry rows are deleted, never stored). -/
inductive Status where
  | pending
  | processing
  | completed
deriving DecidableEq

/-- One row of the `work_queue` table (CREATE TABLE at
src/poomer-discord-vmax.cpp:127-141).  `channel_id`/`user_id` are 64-bit ids
never used arithmetically, modelled as `Int`. -/
structure Row where
  id : Int
  attachment_url : String
  original_filename : String
  channel_id : Int
  user_id : Int
  username : String
  message_content : String
  created_at : Int
  retry_count : Int
  status : Status
  bella_start_time : Int
  bella_end_time : Int
deriving DecidableEq

/-- The `WorkItem` struct handed to `enqueue` (the `id` member is ignored by
the INSERT, which lets AUTOINCREMENT assign it). -/
structure WorkItem where
  attachment_url : String
  original_filename : String
  channel_id : Int
  user_id : Int
  username : String
  message_content : String
  created_at : Int
  retry_count : Int
deriving DecidableEq

/-- The retention window, 24 * 60 * 60 seconds, used by the startup cleanup
(src/poomer-discord-vmax.cpp:162). -/
def retentionWindow : Int := 24 * 60 * 60

/-- Model of `WorkQueue::initialize` (src/poomer-discord-vmax.cpp:118-186), after the
table exists: first `DELETE FROM work_queue WHERE status = 'completed' AND
bella_end_time < now - 24h`, then `UPDATE work_queue SET status = 'pending'
WHERE status = 'processing' AND bella_end_time = 0`. -/
def dbInit (now : Int) (rows : List Row) : List Row :=
  (rows.filter (fun r =>
      !(decide (r.status = Status.completed) &&
        decide (r.bella_end_time < now - retentionWindow)))).map
    (fun r =>
      if r.status = Status.processing ∧ r.bella_end_time = 0 then
        { r with status := Status.pending }
      else r)

/-- AUTOINCREMENT id assignment: strictly larger than every id in the table. -/
def nextId (rows : List Row) : Int :=
  (rows.foldl (fun m r => max m r.id) 0) + 1

/-- Model of `WorkQueue::enqueue` (src/poomer-discord-vmax.cpp:188-225): INSERT with
the item's columns; `status` takes its column default `'pending'` and the two
bella times default 0.  (The method then calls `notify_one`.) -/
def enqueueRow (item : WorkItem) (rows : List Row) : List Row :=
  rows ++ [{ id := nextId rows
             attachment_url := item.attachment_url
             original_filename := item.original_filename
             channel_id := item.channel_id
             user_id := item.user_id
             username := item.username
             message_content := item.message_content
             created_at := item.created_at
             retry_count := item.retry_count
             status := Status.pending
             bella_start_time := 0
             bella_end_time := 0 }]

/-- Rows with `status = 'pending'`. -/
def pendingRows (rows : List Row) : List Row :=
  rows.filter (fun r => decide (r.status = Status.pending))

/-- The query `SELECT ... WHERE status = 'pending' ORDER BY created_at ASC LIMIT 1`
(src/poomer-discord-vmax.cpp:231-237).  On `created_at` ties the index
`(status, created_at)` yields the smallest rowid, i.e. the first such row in
table order, which is exactly `List.argmin`. -/
def selectOldestPending (rows : List Row) : Option Row :=
  (pendingRows rows).argmin Row.created_at

/-- Model of `WorkQueue::markProcessing` (src/poomer-discord-vmax.cpp:545-559):
`UPDATE work_queue SET status = 'processing' WHERE id = ?`. -/
def markProcessingRows (item_id : Int) (rows : List Row) : List Row :=
  rows.map (fun r =>
    if r.id = item_id then { r with status := Status.processing } else r)

/-- Outcome of one pass of the `dequeue` loop body. -/
inductive DequeueResult where
  | job (r : Row)
  | blocked
  | closed
deriving DecidableEq

/-- One iteration of the `WorkQueue::dequeue` loop
(src/poomer-discord-vmax.cpp:227-275): if `shutdown_requested` the loop exits
returning `false` (`closed`); otherwise the oldest pending row is selected,
and if one exists it is flipped to `'processing'` (still under the mutex,
before returning) and returned; with no pending row the call waits on the
condition variable (`blocked`, store untouched). -/
def dequeueStep (shutdown : Bool) (rows : List Row) : DequeueResult × List Row :=
  if shutdown then (DequeueResult.closed, rows)
  else
    match selectOldestPending rows with
    | some r => (DequeueResult.job r, markProcessingRows r.id rows)
    | none => (DequeueResult.blocked, rows)

/-- Model of `WorkQueue::markCompleted` (src/poomer-discord-vmax.cpp:277-301):
`UPDATE work_queue SET status = 'completed', bella_end_time = ? WHERE id = ?`. -/
def markCompletedRows (now : Int) (item_id : Int) (rows : List Row) : List Row :=
  rows.map (fun r =>
    if r.id = item_id then
      { r with status := Status.completed, bella_end_time := now }
    else r)

/-- Model of `WorkQueue::markBellaStarted` (src/poomer-discord-vmax.cpp:348-372):
`UPDATE work_queue SET bella_start_time = ? WHERE id = ?`. -/
def markBellaStartedRows (now : Int) (item_id : Int) (rows : List Row) : List Row :=
  rows.map (fun r =>
    if r.id = item_id then { r with bella_start_time := now } else r)

/-- Result of `WorkQueue::markFailed`: the return value, the store afterwards,
and whether `queue_condition.notify_one()` was called. -/
structure MarkFailedResult where
  ok : Bool
  rows : List Row
  notified : Bool
deriving DecidableEq

/-- Model of `WorkQueue::markFailed` (src/poomer-discord-vmax.cpp:303-346):
read the stored `retry_count` of the row with this id (`false`, store
untouched, if there is none); if it is `>= max_retries` DELETE the row;
otherwise set `retry_count` to the read value + 1, `status` back to
`'pending'`, and wake one dequeuer. -/
def markFailed (item_id : Int) (max_retries : Int) (rows : List Row) :
    MarkFailedResult :=
  match rows.find? (fun r => decide (r.id = item_id)) with
  | none => ⟨false, rows, false⟩
  | some r =>
    if r.retry_count ≥ max_retries then
      ⟨true, rows.filter (fun x => !(decide (x.id = item_id))), false⟩
    else
      ⟨true,
       rows.map (fun x =>
         if x.id = item_id then
           { x with retry_count := r.retry_count + 1, status := Status.pending }
         else x),
       true⟩

/-- Rows with `status = 'processing'`. -/
def processingRows (rows : List Row) : List Row :=
  rows.filter (fun r => decide (r.status = Status.processing))

/-- The query `SELECT id, original_filename ... WHERE status = 'processing' ORDER BY
created_at ASC LIMIT 1` (src/poomer-discord-vmax.cpp:411-416). -/
def selectOldestProcessing (rows : List Row) : Option Row :=
  (processingRows rows).argmin Row.created_at

/-- The in-process queue state: the table plus the three atomics
`shutdown_requested`, `cancel_current_job` and `current_job_id`
(src/poomer-discord-vmax.cpp:105-107). -/
structure QueueState where
  rows : List Row
  shutdown_requested : Bool
  cancel_current_job : Bool
  current_job_id : Int
deriving DecidableEq

/-- Model of `WorkQueue::cancelCurrentJob` (src/poomer-discord-vmax.cpp:408-439):
find the processing row; if found, set the cancel-requested flag and return
its filename; otherwise return `""` leaving everything unchanged. -/
def cancelCurrentJobOp (s : QueueState) : String × QueueState :=
  match selectOldestProcessing s.rows with
  | some r => (r.original_filename, { s with cancel_current_job := true })
  | none => ("", s)

/-- Model of `WorkQueue::markCurrentJobCancelled` (src/poomer-discord-vmax.cpp:445-463):
clear the cancel-requested flag; then, if `current_job_id > 0`, DELETE that
row and clear `current_job_id` to 0. -/
def markCurrentJobCancelledOp (s : QueueState) : QueueState :=
  let s1 := { s with cancel_current_job := false }
  if s.current_job_id > 0 then
    { s1 with
      rows := s1.rows.filter (fun r => !(decide (r.id = s.current_job_id)))
      current_job_id := 0 }
  else s1

/-! ### parseOrbit (src/poomer-discord-vmax.cpp:592-628) -/

/-- The C `tolower` in the "C" locale on the ASCII range (all the function is
specified for). -/
def asciiToLower (c : Char) : Char :=
  if 'A' ≤ c ∧ c ≤ 'Z' then Char.ofNat (c.toNat + 32) else c

/-- Does `haystack` start with `needle`? -/
def charsStartWith : List Char → List Char → Bool
  | [], _ => true
  | _ :: _, [] => false
  | a :: as, b :: bs => a == b && charsStartWith as bs

/-- Model of `std::string::find(needle)`: index of the first occurrence. -/
def findSubAux (needle : List Char) : List Char → Nat → Option Nat
  | [], i => if needle.isEmpty then some i else none
  | c :: rest, i =>
    if charsStartWith needle (c :: rest) then some i
    else findSubAux needle rest (i + 1)

/-- Model of `std::string::find_first_of(set, start)` restricted to the suffix from
`start`: the argument list is `cs.drop start` and indices count from `start`. -/
def findFirstOfAux (set : List Char) : List Char → Nat → Option Nat
  | [], _ => none
  | c :: rest, i =>
    if set.contains c then some i else findFirstOfAux set rest (i + 1)

/-- C `isspace` in the default locale. -/
def isSpaceC (c : Char) : Bool :=
  c == ' ' || c == '\t' || c == '\n' || c == '\x0b' || c == '\x0c' || c == '\r'

def isDigitC (c : Char) : Bool := '0' ≤ c && c ≤ '9'

/-- Model of `std::stoi` (base 10): skip leading whitespace, optional sign, then a
non-empty greedy digit run (the rest of the string is ignored); throws
`invalid_argument` with no digits and `out_of_range` beyond `int` — both
modelled as `none`, which `parseOrbit`'s `catch` turns into 0. -/
def stoiC (cs : List Char) : Option Int :=
  let cs1 := cs.dropWhile isSpaceC
  let signed : Bool × List Char :=
    match cs1 with
    | '-' :: t => (true, t)
    | '+' :: t => (false, t)
    | t => (false, t)
  let digits := signed.2.takeWhile isDigitC
  if digits.isEmpty then none
  else
    let mag : Int := digits.foldl (fun a c => a * 10 + (Int.ofNat c.toNat - 48)) 0
    let v : Int := if signed.1 then -mag else mag
    if v < -2147483648 ∨ v > 2147483647 then none else some v

def orbitKey : List Char := ['o', 'r', 'b', 'i', 't', '=']

def orbitDelims : List Char := [' ', '\t', '\n', '\r']

/-- The extraction part of `parseOrbit`: lowercase the content, find
`"orbit="`, take the token up to the next whitespace (from the original,
non-lowercased string, as the source does), and run `stoi` on it.  `none`
when the key is absent, nothing follows it, or `stoi` fails. -/
def orbitDirective (message_content : String) : Option Int :=
  let cs := message_content.toList
  let lower := cs.map asciiToLower
  match findSubAux orbitKey lower 0 with
  | none => none
  | some pos =>
    let start := pos + 6
    if start ≥ cs.length then none
    else
      let endPos :=
        match findFirstOfAux orbitDelims (cs.drop start) start with
        | none => cs.length
        | some e => e
      let frames_str := (cs.drop start).take (endPos - start)
      stoiC frames_str

/-- Model of `parseOrbit` (src/poomer-discord-vmax.cpp:592-628): the extraction above,
then `frames <= 0 || frames > 300` (and any `stoi` exception) yields 0,
meaning "no animation". -/
def parseOrbit (message_content : String) : Int :=
  let cs := message_content.toList
  let lower := cs.map asciiToLower
  match findSubAux orbitKey lower 0 with
  | none => 0
  | some pos =>
    let start := pos + 6
    if start ≥ cs.length then 0
    else
      let endPos :=
        match findFirstOfAux orbitDelims (cs.drop start) start with
        | none => cs.length
        | some e => e
      let frames_str := (cs.drop start).take (endPos - start)
      match stoiC frames_str with
      | none => 0
      | some frames => if frames ≤ 0 ∨ frames > 300 then 0 else frames

/-! ### processVmaxFile and the worker loop

`processVmaxFile` (src/poomer-discord-vmax.cpp:637-1149) is modelled twice:
once tracking only the job-scoped filesystem resources (for the cleanup
claim), once threading the queue state (for the worker-loop claims).  The
external collaborators (unzip, the Bella scene build, the renderer, ffmpeg)
are abstracted to the boolean outcomes the control flow branches on, in
source order. -/

/-- Outcomes of the external calls `processVmaxFile` branches on, in the
order the source consults them. -/
structure PipeEnv where
  /-- Whether `system(unzip ...) == 0` (line 664). -/
  unzip_ok : Bool
  /-- a `.vmax` directory was found in the extracted files (line 700). -/
  vmax_dir_found : Bool
  /-- Whether `scene.json` exists in the work directory (line 748). -/
  scene_json_exists : Bool
  /-- some stage inside the `try` block throws (e.g. the palette or plist
  reads, lines 828-858), unwinding to the `catch` at line 1140. -/
  build_throws : Bool
  /-- a cancellation request arrives while the renderer runs, observed by the
  poll loops at lines 1048-1070 / 1115-1128. -/
  cancel_arrives_during_render : Bool
  /-- Whether `system(ffmpeg ...) == 0` (line 1084). -/
  ffmpeg_ok : Bool
deriving DecidableEq

/-- The two job-scoped filesystem resources of one `processVmaxFile` call:
`temp_vmax_file_job<N>.vmax.zip` and `voxel_max_workdir_job<N>`. -/
structure PipeFs where
  temp_file_exists : Bool
  work_dir_exists : Bool
deriving DecidableEq

/-- Model of `processVmaxFile`, tracking only its result string and the two job-scoped
filesystem resources.  `cancel_requested` is the cancellation flag as seen by
the checkpoints inside the scene build (lines 812, 868, 891).  Source paths:
* unzip failure (line 665): remove temp file, work dir never created;
* no `.vmax` dir (line 700): remove temp file and work dir;
* `scene.json` missing (line 748): `return ""` with no cleanup;
* exception in the `try` block: `catch` (line 1140) removes both;
* cancellation checkpoint hit (lines 812-816 etc.): `return ""`, no cleanup;
* orbit path: cancel during render (1053/1069) or ffmpeg failure (1104):
  `return ""`, no cleanup; ffmpeg success (1098-1101): remove both;
* single-frame path: cancel during render (1128): `return ""`, no cleanup;
  success (1134-1137): remove both. -/
def processVmaxFileFs (env : PipeEnv) (cancel_requested : Bool)
    (message_content : String) (base_filename : String) : String × PipeFs :=
  if !env.unzip_ok then
    ("", ⟨false, false⟩)
  else if !env.vmax_dir_found then
    ("", ⟨false, false⟩)
  else if !env.scene_json_exists then
    ("", ⟨true, true⟩)
  else if cancel_requested then
    ("", ⟨true, true⟩)
  else if env.build_throws then
    ("", ⟨false, false⟩)
  else
    let orbit_frames := parseOrbit message_content
    if orbit_frames > 0 then
      if env.cancel_arrives_during_render then ("", ⟨true, true⟩)
      else if env.ffmpeg_ok then (base_filename ++ "_orbit.mp4", ⟨false, false⟩)
      else ("", ⟨true, true⟩)
    else
      if env.cancel_arrives_during_render then ("", ⟨true, true⟩)
      else (base_filename ++ ".jpg", ⟨false, false⟩)

/-- Store transitions the worker makes for one job, in order. -/
inductive QueueEvent where
  | evBellaStarted (id : Int)
  | evCancelledAck
  | evCompleted (id : Int)
  | evFailed (id : Int)
deriving DecidableEq

/-- Model of `processVmaxFile`, threading the queue state: every cancellation
checkpoint that fires calls `markCurrentJobCancelled` and returns `""`; the
render stage first records `markBellaStarted`.  A cancellation arriving
during the render sets the flag, which the poll loop observes before
acknowledging.  Branch order follows the source (the first scene-build
checkpoint at line 812 precedes the throwing reads at lines 828-858). -/
def processVmaxFileQ (env : PipeEnv) (now : Int) (item_id : Int)
    (message_content : String) (s : QueueState) :
    String × QueueState × List QueueEvent :=
  if !env.unzip_ok then ("", s, [])
  else if !env.vmax_dir_found then ("", s, [])
  else if !env.scene_json_exists then ("", s, [])
  else if s.cancel_current_job then
    ("", markCurrentJobCancelledOp s, [QueueEvent.evCancelledAck])
  else if env.build_throws then ("", s, [])
  else
    let s1 := { s with rows := markBellaStartedRows now item_id s.rows }
    let evs := [QueueEvent.evBellaStarted item_id]
    let orbit_frames := parseOrbit message_content
    if orbit_frames > 0 then
      if env.cancel_arrives_during_render then
        ("", markCurrentJobCancelledOp { s1 with cancel_current_job := true },
         evs ++ [QueueEvent.evCancelledAck])
      else if env.ffmpeg_ok then ("out_orbit.mp4", s1, evs)
      else ("", s1, evs)
    else
      if env.cancel_arrives_during_render then
        ("", markCurrentJobCancelledOp { s1 with cancel_current_job := true },
         evs ++ [QueueEvent.evCancelledAck])
      else ("out.jpg", s1, evs)

/-- Outcomes of the external calls one worker-loop iteration branches on. -/
structure WorkerEnv where
  /-- the attachment download returned HTTP 200 (line 1175). -/
  download_ok : Bool
  pipeEnv : PipeEnv
  /-- the output file could be opened and read (line 1228). -/
  file_readable : Bool
  /-- Whether `message_create` reported success (line 1261). -/
  send_ok : Bool
  now : Int
deriving DecidableEq

/-- One iteration of `workerThread` (src/poomer-discord-vmax.cpp:1154-1299)
for an already-dequeued item, returning the queue state and the store
transitions made:
* download failure → `markFailed` (line 1292);
* `setCurrentJobId`, then a pre-processing cancellation check (line 1205);
* run the pipeline; if afterwards the cancel flag is set or the result is
  empty (line 1214): acknowledge the cancellation if the flag is set,
  otherwise `continue` with no store transition at all;
* otherwise deliver: `markCompleted` when the send succeeded and the file was
  readable, else `markFailed` (lines 1283-1287). -/
def workerIteration (env : WorkerEnv) (item : Row) (s : QueueState) :
    QueueState × List QueueEvent :=
  if !env.download_ok then
    ({ s with rows := (markFailed item.id 3 s.rows).rows },
     [QueueEvent.evFailed item.id])
  else
    let s1 := { s with current_job_id := item.id }
    if s1.cancel_current_job then
      (markCurrentJobCancelledOp s1, [QueueEvent.evCancelledAck])
    else
      let res := processVmaxFileQ env.pipeEnv env.now item.id
        item.message_content s1
      let out := res.1
      let s2 := res.2.1
      let evs := res.2.2
      if s2.cancel_current_job || out == "" then
        if s2.cancel_current_job then
          (markCurrentJobCancelledOp s2, evs ++ [QueueEvent.evCancelledAck])
        else (s2, evs)
      else
        if env.send_ok && env.file_readable then
          ({ s2 with rows := markCompletedRows env.now item.id s2.rows },
           evs ++ [QueueEvent.evCompleted item.id])
        else
          ({ s2 with rows := (markFailed item.id 3 s2.rows).rows },
           evs ++ [QueueEvent.evFailed item.id])

/-! ### Concrete data for witnesses and counterexamples -/

/-- A freshly enqueued job row (id 1, retry_count 0, pending). -/
def sampleRow : Row :=
  { id := 1
    attachment_url := "https://cdn.example/a.vmax.zip"
    original_filename := "a.vmax.zip"
    channel_id := 5
    user_id := 7
    username := "alice"
    message_content := ""
    created_at := 100
    retry_count := 0
    status := Status.pending
    bella_start_time := 0
    bella_end_time := 0 }

/-- The row `sampleRow` after the worker claimed it. -/
def procRow : Row := { sampleRow with status := Status.processing }

/-! ### C10 -/

/-- C10: `markFailed` on an id with no row in the store returns `false` and
leaves the store completely unchanged (and wakes nobody). -/
theorem markFailed_missing_id (item_id : Int) (max_retries : Int)
    (rows : List Row) (h : ∀ r ∈ rows, r.id ≠ item_id) :
    markFailed item_id max_retries rows = ⟨false, rows, false⟩ := by
  have hfind : rows.find? (fun r => decide (r.id = item_id)) = none := by
    rw [List.find?_eq_none]
    intro x hx
    simp [h x hx]
  simp [markFailed, hfind]

/-- C10 witness: id 2 is absent from the one-row store, so `markFailed`
returns `false` and changes nothing. -/
theorem markFailed_missing_id_witness :
    markFailed 2 3 [sampleRow] = ⟨false, [sampleRow], false⟩ :=
  markFailed_missing_id 2 3 [sampleRow] (by decide)

/-! ### C1 -/

/-- C1 counterexample: with `maxRetries = 3`, after `markFailed` has been
called exactly 3 times on a freshly enqueued job (retry_count 0), the row is
NOT deleted: it is still present, `pending`, with `retry_count = 3`.  The
deletion only happens on the 4th call, when the stored `retry_count` has
reached 3. -/
theorem markFailed_three_calls_not_deleted :
    (markFailed 1 3 (markFailed 1 3 (markFailed 1 3 [sampleRow]).rows).rows).rows
      = [{ sampleRow with retry_count := 3, status := Status.pending }] ∧
    (markFailed 1 3 (markFailed 1 3 (markFailed 1 3 [sampleRow]).rows).rows).rows
      ≠ [] := by
  constructor
  · decide
  · decide

/-- C1 (amended): with `maxRetries = 3`, a fresh job survives the first
3 `markFailed` calls — after `maxRetries - 1 = 2` calls it is `pending` with
`retry_count = 2`, after 3 calls `pending` with `retry_count = 3` — and is
deleted on the 4th call (the one that reads a stored `retry_count ≥ 3`).
`markFailed` decides by reading the stored retry_count: `≥ max_retries`
deletes the row without notifying; otherwise it increments `retry_count`,
sets status back to `pending`, and wakes one dequeuer. -/
theorem markFailed_retry_bound (j : Row) (h0 : j.retry_count = 0) :
    ((markFailed j.id 3 (markFailed j.id 3 [j]).rows).rows
       = [{ j with retry_count := 2, status := Status.pending }]) ∧
    ((markFailed j.id 3
        (markFailed j.id 3 (markFailed j.id 3 [j]).rows).rows).rows
       = [{ j with retry_count := 3, status := Status.pending }]) ∧
    ((markFailed j.id 3 (markFailed j.id 3
        (markFailed j.id 3 (markFailed j.id 3 [j]).rows).rows).rows).rows
       = []) ∧
    (∀ (rows : List Row) (i m : Int) (r : Row),
       rows.find? (fun x => decide (x.id = i)) = some r →
       r.retry_count ≥ m →
       markFailed i m rows =
         ⟨true, rows.filter (fun x => !(decide (x.id = i))), false⟩) ∧
    (∀ (rows : List Row) (i m : Int) (r : Row),
       rows.find? (fun x => decide (x.id = i)) = some r →
       ¬(r.retry_count ≥ m) →
       markFailed i m rows =
         ⟨true,
          rows.map (fun x =>
            if x.id = i then
              { x with retry_count := r.retry_count + 1,
                       status := Status.pending }
            else x),
          true⟩) := by
  refine ⟨?_, ?_, ?_, ?_, ?_⟩
  · simp [markFailed, List.find?, h0]
  · simp [markFailed, List.find?, h0]
  · simp [markFailed, List.find?, h0]
  · intro rows i m r hfind hge
    simp [markFailed, hfind, hge]
  · intro rows i m r hfind hlt
    simp [markFailed, hfind, hlt]

/-- C1 witness: the amended bound evaluated on the concrete fresh job. -/
theorem markFailed_retry_bound_witness :
    ((markFailed sampleRow.id 3
        (markFailed sampleRow.id 3 [sampleRow]).rows).rows
       = [{ sampleRow with retry_count := 2, status := Status.pending }]) ∧
    ((markFailed sampleRow.id 3
        (markFailed sampleRow.id 3
          (markFailed sampleRow.id 3 [sampleRow]).rows).rows).rows
       = [{ sampleRow with retry_count := 3, status := Status.pending }]) :=
  ⟨(markFailed_retry_bound sampleRow (by decide)).1,
   (markFailed_retry_bound sampleRow (by decide)).2.1⟩

/-! ### C7 -/

/-- C7: `markCurrentJobCancelled` is idempotent — applying it to its own
result changes nothing — and is complete: after `cancelCurrentJob` on a state
whose `current_job_id` names a processing row, the next checkpoint's
`markCurrentJobCancelled` leaves no row with that id, `current_job_id = 0`,
and the cancel-requested flag cleared. -/
theorem markCurrentJobCancelled_idempotent_complete :
    (∀ s : QueueState,
       markCurrentJobCancelledOp (markCurrentJobCancelledOp s)
         = markCurrentJobCancelledOp s) ∧
    (∀ (s : QueueState) (r : Row), r ∈ s.rows →
       r.status = Status.processing → s.current_job_id = r.id → 0 < r.id →
       (markCurrentJobCancelledOp (cancelCurrentJobOp s).2).cancel_current_job
           = false ∧
       (markCurrentJobCancelledOp (cancelCurrentJobOp s).2).current_job_id
           = 0 ∧
       ∀ x ∈ (markCurrentJobCancelledOp (cancelCurrentJobOp s).2).rows,
         x.id ≠ r.id) := by
  constructor
  · intro s
    by_cases h : s.current_job_id > 0
    · simp [markCurrentJobCancelledOp, h]
    · simp [markCurrentJobCancelledOp, h]
  · intro s r hmem hstat hcur hpos
    have hproc : r ∈ processingRows s.rows := by
      simp [processingRows, List.mem_filter, hmem, hstat]
    have hne : processingRows s.rows ≠ [] := by
      intro h
      rw [h] at hproc
      exact (List.not_mem_nil r) hproc
    obtain ⟨w, hw⟩ : ∃ w, selectOldestProcessing s.rows = some w := by
      cases hsel : selectOldestProcessing s.rows with
      | none => exact absurd (List.argmin_eq_none.mp hsel) hne
      | some w => exact ⟨w, rfl⟩
    have hsnd : (cancelCurrentJobOp s).2 = { s with cancel_current_job := true } := by
      simp [cancelCurrentJobOp, hw]
    rw [hsnd]
    have hgt : ({ s with cancel_current_job := true } : QueueState).current_job_id > 0 := by
      simpa [hcur] using hpos
    refine ⟨?_, ?_, ?_⟩
    · simp [markCurrentJobCancelledOp, hgt]
    · simp [markCurrentJobCancelledOp, hgt]
    · intro x hx
      simp only [markCurrentJobCancelledOp, hgt, if_pos] at hx
      have := (List.mem_filter.mp hx).2
      simp only [Bool.not_eq_true', decide_eq_false_iff_not] at this
      simpa [hcur] using this

/-- C7 witness: the cancellation scenario on a concrete one-job store. -/
theorem markCurrentJobCancelled_witness :
    (markCurrentJobCancelledOp
        (cancelCurrentJobOp ⟨[procRow], false, false, 1⟩).2).cancel_current_job
        = false ∧
    (markCurrentJobCancelledOp
        (cancelCurrentJobOp ⟨[procRow], false, false, 1⟩).2).current_job_id
        = 0 ∧
    ∀ x ∈ (markCurrentJobCancelledOp
        (cancelCurrentJobOp ⟨[procRow], false, false, 1⟩).2).rows,
      x.id ≠ procRow.id :=
  markCurrentJobCancelled_idempotent_complete.2
    ⟨[procRow], false, false, 1⟩ procRow (by decide) (by decide) (by decide)
    (by decide)

/-! ### C6 -/

/-- C6: the dequeue contract.  With shutdown signaled the loop returns the
closed signal.  When a pass returns a job, that job was pending with the
smallest `created_at`, and in the store handed back — updated under the same
mutex hold, before `dequeue` returns — every row with the job's id is already
`'processing'`, so a second claimant can never select it again.  A pass
blocks (waits on the condition variable) exactly when shutdown is not
signaled and no pending row exists, leaving the store untouched. -/
theorem dequeue_contract :
    (∀ rows : List Row, dequeueStep true rows = (DequeueResult.closed, rows)) ∧
    (∀ (rows rows2 : List Row) (r : Row),
       dequeueStep false rows = (DequeueResult.job r, rows2) →
       r ∈ rows ∧ r.status = Status.pending ∧
       (∀ x ∈ rows, x.status = Status.pending → r.created_at ≤ x.created_at) ∧
       rows2 = markProcessingRows r.id rows ∧
       (∀ x ∈ rows2, x.id = r.id → x.status = Status.processing)) ∧
    (∀ rows rows2 : List Row,
       dequeueStep false rows = (DequeueResult.blocked, rows2) →
       rows2 = rows ∧ pendingRows rows = []) := by
  refine ⟨?_, ?_, ?_⟩
  · intro rows
    simp [dequeueStep]
  · intro rows rows2 r h
    simp only [dequeueStep, if_neg (by simp : ¬(false = true))] at h
    cases hsel : selectOldestPending rows with
    | none => rw [hsel] at h; exact absurd h (by simp)
    | some w =>
      rw [hsel] at h
      simp only [Prod.mk.injEq] at h
      obtain ⟨h1, hrows⟩ := h
      injection h1 with h1
      subst h1
      have hmem : w ∈ pendingRows rows :=
        List.argmin_mem (by simpa [selectOldestPending] using hsel)
      have hmem' := List.mem_filter.mp hmem
      have hstat : w.status = Status.pending := by
        simpa using hmem'.2
      refine ⟨hmem'.1, hstat, ?_, hrows.symm, ?_⟩
      · intro x hx hxstat
        have hxmem : x ∈ pendingRows rows := by
          simp [pendingRows, List.mem_filter, hx, hxstat]
        exact List.le_of_mem_argmin hxmem
          (by simpa [selectOldestPending] using hsel)
      · intro x hx hid
        rw [← hrows] at hx
        simp only [markProcessingRows, List.mem_map] at hx
        obtain ⟨y, _, hy⟩ := hx
        by_cases hcase : y.id = w.id
        · rw [← hy]
          simp [hcase]
        · exfalso
          apply hcase
          have : x = y := by rw [← hy]; simp [hcase]
          rw [← this] at hcase ⊢
          exact hid
  · intro rows rows2 h
    simp only [dequeueStep, if_neg (by simp : ¬(false = true))] at h
    cases hsel : selectOldestPending rows with
    | none =>
      rw [hsel] at h
      refine ⟨(congrArg Prod.snd h).symm, ?_⟩
      have hnone : (pendingRows rows).argmin Row.created_at = none := by
        simpa [selectOldestPending] using hsel
      exact List.argmin_eq_none.mp hnone
    | some w => rw [hsel] at h; exact absurd h (by simp)

/-- C6 witness: dequeuing from the one-pending-row store returns that row and
hands back the store with it flipped to `'processing'`. -/
theorem dequeue_contract_witness :
    sampleRow ∈ [sampleRow] ∧ sampleRow.status = Status.pending ∧
    (∀ x ∈ [sampleRow], x.status = Status.pending →
       sampleRow.created_at ≤ x.created_at) ∧
    [procRow] = markProcessingRows sampleRow.id [sampleRow] ∧
    (∀ x ∈ [procRow], x.id = sampleRow.id → x.status = Status.processing) :=
  dequeue_contract.2.1 [sampleRow] [procRow] sampleRow (by decide)

/-! ### C3 and C8: the pipeline-failure path of the worker loop -/

/-- A run in which every external call succeeds except that `scene.json` is
missing from the extracted archive, so `processVmaxFile` returns `""`
(src/poomer-discord-vmax.cpp:748-751) without any cancellation. -/
def sceneJsonMissingEnv : PipeEnv :=
  { unzip_ok := true
    vmax_dir_found := true
    scene_json_exists := false
    build_throws := false
    cancel_arrives_during_render := false
    ffmpeg_ok := true }

/-- Worker environment for that run: download succeeds, no cancellation. -/
def failedPipelineEnv : WorkerEnv :=
  { download_ok := true
    pipeEnv := sceneJsonMissingEnv
    file_readable := true
    send_ok := true
    now := 500 }

/-- C3: evaluation of the worker loop at the failing input.  The job was
dequeued (its row is `'processing'`), it is never cancelled, and the pipeline
returns an empty artifact — yet the iteration makes NO store transition at
all: no `markFailed`, no `markCompleted`, no cancellation acknowledgement
(the event list is empty), and the row is left in `'processing'`.  This is
the `continue` at src/poomer-discord-vmax.cpp:1214-1220, which only
acknowledges cancellation and otherwise skips failure accounting. -/
theorem worker_skips_markFailed_on_pipeline_error :
    workerIteration failedPipelineEnv procRow ⟨[procRow], false, false, 0⟩
      = (⟨[procRow], false, false, 1⟩, ([] : List QueueEvent)) := by
  decide

/-- Jobs for the two-job trace. -/
def traceItem1 : WorkItem :=
  ⟨"https://cdn.example/a.vmax.zip", "a.vmax.zip", 5, 7, "alice", "", 100, 0⟩

def traceItem2 : WorkItem :=
  ⟨"https://cdn.example/b.vmax.zip", "b.vmax.zip", 5, 8, "bob", "", 200, 0⟩

/-- Store after initialization on an empty database and two enqueues. -/
def traceRows : List Row :=
  enqueueRow traceItem2 (enqueueRow traceItem1 (dbInit 1000 []))

/-- First dequeue of the trace. -/
def traceDq1 : DequeueResult × List Row := dequeueStep false traceRows

/-- The row the first dequeue hands to the worker. -/
def traceJob1 : Row :=
  match traceDq1.1 with
  | DequeueResult.job r => r
  | _ => sampleRow

/-- Queue state after the worker's iteration on the first job, whose pipeline
fails (missing `scene.json`) with no cancellation. -/
def traceAfterWorker : QueueState :=
  (workerIteration failedPipelineEnv traceJob1 ⟨traceDq1.2, false, false, 0⟩).1

/-- Store after the worker loops around and dequeues the second job. -/
def traceFinalRows : List Row := (dequeueStep false traceAfterWorker.rows).2

/-- Number of rows with `status = 'processing'`. -/
def countProcessing (rows : List Row) : Nat := (processingRows rows).length

/-- C8: evaluation of the reachable two-job trace at the failing input.
After initialization, two enqueues, a dequeue, a worker iteration whose
pipeline fails without cancellation (which makes no store transition, see
src/poomer-discord-vmax.cpp:1214-1220) and the worker's next dequeue, the
store holds TWO rows with status `'processing'` — the at-most-one-processing
invariant is violated in a state reachable from the listed operations. -/
theorem two_processing_rows_reachable :
    (workerIteration failedPipelineEnv traceJob1
        ⟨traceDq1.2, false, false, 0⟩).2 = ([] : List QueueEvent) ∧
    countProcessing traceAfterWorker.rows = 1 ∧
    countProcessing traceFinalRows = 2 := by
  refine ⟨?_, ?_, ?_⟩
  · decide
  · decide
  · decide

/-! ### C4 -/

/-- C4 counterexample: an invocation in which unzip succeeds and a `.vmax`
directory is found but `scene.json` is missing exits through the `return ""`
at src/poomer-discord-vmax.cpp:748-751, leaving BOTH the job-scoped working
directory and the job-scoped temporary input file behind — cleanup does not
run on this exit path. -/
theorem cleanup_skipped_on_missing_scene_json :
    (processVmaxFileFs sceneJsonMissingEnv false "" "out").1 = "" ∧
    (processVmaxFileFs sceneJsonMissingEnv false "" "out").2.temp_file_exists
      = true ∧
    (processVmaxFileFs sceneJsonMissingEnv false "" "out").2.work_dir_exists
      = true := by
  decide

/-- C4 (amended): the job-scoped working directory and temporary input file
are removed exactly on these exit paths: unzip failure (the work directory is
then never created), missing `.vmax` directory, an exception unwinding the
`try` block, and the two success paths; they are NOT removed on the
missing-`scene.json` return, on a cancellation checkpoint return, on a
cancellation observed during rendering, or on an ffmpeg failure. -/
theorem cleanup_exit_paths (env : PipeEnv) (cancel_requested : Bool)
    (msg base : String) :
    ((processVmaxFileFs env cancel_requested msg base).2.temp_file_exists = false ∧
     (processVmaxFileFs env cancel_requested msg base).2.work_dir_exists = false) ↔
    (env.unzip_ok = false ∨ env.vmax_dir_found = false ∨
     (env.scene_json_exists = true ∧ cancel_requested = false ∧
      env.build_throws = true) ∨
     (env.scene_json_exists = true ∧ cancel_requested = false ∧
      env.build_throws = false ∧ env.cancel_arrives_during_render = false ∧
      (¬(parseOrbit msg > 0) ∨ env.ffmpeg_ok = true))) := by
  unfold processVmaxFileFs
  rcases env with ⟨uz, vd, sj, bt, cr, ff⟩
  cases uz <;> cases vd <;> cases sj <;> cases bt <;> cases cr <;> cases ff <;>
    cases cancel_requested <;>
    by_cases ho : parseOrbit msg > 0 <;>
    simp_all <;>
    rw [if_neg (by omega)] <;> simp

/-! ### C5 -/

/-- The rows carrying a given primary key (at most one in a real table). -/
def rowsWithId (item_id : Int) (rows : List Row) : List Row :=
  rows.filter (fun r => decide (r.id = item_id))

theorem filter_id_map_of_id_preserving (c : Int) (g : Row → Row)
    (hg : ∀ r, (g r).id = r.id) (l : List Row) :
    (l.map g).filter (fun x => decide (x.id = c))
      = (l.filter (fun x => decide (x.id = c))).map g := by
  induction l with
  | nil => simp
  | cons a t ih =>
    by_cases h : a.id = c
    · simp [List.filter_cons, hg, h, ih]
    · simp [List.filter_cons, hg, h, ih]

theorem filter_id_unique (q : Row → Bool) (l : List Row) (r : Row)
    (hids : (l.map Row.id).Nodup) (hr : r ∈ l) :
    l.filter (fun x => decide (x.id = r.id) && q x)
      = if q r then [r] else [] := by
  induction l with
  | nil => cases hr
  | cons a t ih =>
    rw [List.map_cons, List.nodup_cons] at hids
    obtain ⟨ha, ht⟩ := hids
    rcases List.mem_cons.mp hr with h | h
    · subst h
      have hnone : t.filter (fun x => decide (x.id = r.id) && q x) = [] := by
        rw [List.filter_eq_nil_iff]
        intro x hx
        simp only [Bool.and_eq_true, decide_eq_true_eq, not_and]
        intro hxid _
        exact ha (hxid ▸ List.mem_map_of_mem Row.id hx)
      rw [List.filter_cons]
      by_cases hq : q r
      · simp [hq, hnone]
      · simp [hq, hnone]
    · have hne : ¬(a.id = r.id) := by
        intro heq
        exact ha (heq ▸ List.mem_map_of_mem Row.id h)
      rw [List.filter_cons]
      simp [hne, ih ht h]

theorem rowsWithId_dbInit (now : Int) (rows : List Row)
    (hids : (rows.map Row.id).Nodup) (r : Row) (hr : r ∈ rows) :
    rowsWithId r.id (dbInit now rows) =
      if r.status = Status.completed ∧
         r.bella_end_time < now - retentionWindow then []
      else if r.status = Status.processing ∧ r.bella_end_time = 0 then
        [{ r with status := Status.pending }]
      else [r] := by
  unfold dbInit rowsWithId
  rw [filter_id_map_of_id_preserving r.id _ (by intro x; split <;> rfl),
      List.filter_filter, filter_id_unique _ rows r hids hr]
  by_cases hc : r.status = Status.completed ∧
      r.bella_end_time < now - retentionWindow
  · rw [if_pos hc, if_neg, List.map_nil]
    simp [hc.1, hc.2]
  · rw [if_neg hc, if_pos, List.map_cons, List.map_nil]
    · by_cases horph : r.status = Status.processing ∧ r.bella_end_time = 0
      · rw [if_pos horph, if_pos horph]
      · rw [if_neg horph, if_neg horph]
    · rcases Decidable.not_and_iff_or_not.mp hc with h | h
      · simp [h]
      · simp [h]

/-- C5: startup self-healing.  For a store with unique primary keys, after
`initialize` (a) every `'completed'` row whose end time is older than the
24-hour retention window is gone, (b) every `'processing'` row with end time
0 is present exactly once, reset to `'pending'` and otherwise unchanged, and
(c) every other row is present exactly once, unchanged. -/
theorem db_init_self_healing (now : Int) (rows : List Row)
    (hids : (rows.map Row.id).Nodup) (r : Row) (hr : r ∈ rows) :
    (r.status = Status.completed → r.bella_end_time < now - retentionWindow →
       rowsWithId r.id (dbInit now rows) = []) ∧
    (r.status = Status.processing → r.bella_end_time = 0 →
       rowsWithId r.id (dbInit now rows)
         = [{ r with status := Status.pending }]) ∧
    (¬(r.status = Status.completed ∧
        r.bella_end_time < now - retentionWindow) →
     ¬(r.status = Status.processing ∧ r.bella_end_time = 0) →
       rowsWithId r.id (dbInit now rows) = [r]) := by
  refine ⟨?_, ?_, ?_⟩ <;> intro h1 h2 <;>
    rw [rowsWithId_dbInit now rows hids r hr]
  · rw [if_pos ⟨h1, h2⟩]
  · rw [if_neg (by simp [h1]), if_pos ⟨h1, h2⟩]
  · rw [if_neg h1, if_neg h2]

/-- An expired completed row: done a long time ago. -/
def expiredRow : Row :=
  { sampleRow with
      id := 2
      status := Status.completed
      bella_start_time := 10
      bella_end_time := 20 }

/-- An orphaned processing row: claimed but never finished. -/
def orphanRow : Row :=
  { sampleRow with id := 3, status := Status.processing }

/-- C5 witness: on a concrete three-row store at time 200000, the expired
completed row is purged, the orphaned processing row is reset to pending
exactly once, and the untouched pending row survives unchanged. -/
theorem db_init_self_healing_witness :
    rowsWithId expiredRow.id
        (dbInit 200000 [sampleRow, expiredRow, orphanRow]) = [] ∧
    rowsWithId orphanRow.id
        (dbInit 200000 [sampleRow, expiredRow, orphanRow])
      = [{ orphanRow with status := Status.pending }] ∧
    rowsWithId sampleRow.id
        (dbInit 200000 [sampleRow, expiredRow, orphanRow]) = [sampleRow] :=
  ⟨(db_init_self_healing 200000 [sampleRow, expiredRow, orphanRow]
      (by decide) expiredRow (by decide)).1 (by decide) (by decide),
   (db_init_self_healing 200000 [sampleRow, expiredRow, orphanRow]
      (by decide) orphanRow (by decide)).2.1 (by decide) (by decide),
   (db_init_self_healing 200000 [sampleRow, expiredRow, orphanRow]
      (by decide) sampleRow (by decide)).2.2 (by decide) (by decide)⟩

/-! ### C9 -/

/-- C9: `parseOrbit` never errors and yields either 0 ("no animation") or a
frame count in 1..300; and for every `n` in 1..300 it returns `n` exactly
when the message contains an `orbit=` token whose value `stoi`-parses to `n`
(the extraction `orbitDirective`).  Absent token, empty/non-numeric value, or
an out-of-bounds value (e.g. `orbit=500` or `orbit=0`) all fall into the 0
case. -/
theorem parseOrbit_range_characterization (s : String) :
    (parseOrbit s = 0 ∨ (1 ≤ parseOrbit s ∧ parseOrbit s ≤ 300)) ∧
    (∀ n : Int, 1 ≤ n → n ≤ 300 →
       (parseOrbit s = n ↔ orbitDirective s = some n)) := by
  simp only [parseOrbit, orbitDirective]
  cases h1 : findSubAux orbitKey ((s.toList).map asciiToLower) 0 with
  | none =>
    dsimp only
    refine ⟨Or.inl rfl, ?_⟩
    intro n hn1 _
    constructor
    · intro h; omega
    · intro h; cases h
  | some pos =>
    dsimp only
    by_cases h2 : pos + 6 ≥ (s.toList).length
    · rw [if_pos h2, if_pos h2]
      refine ⟨Or.inl rfl, ?_⟩
      intro n hn1 _
      constructor
      · intro h; omega
      · intro h; cases h
    · rw [if_neg h2, if_neg h2]
      cases h3 : stoiC (((s.toList).drop (pos + 6)).take
          ((match findFirstOfAux orbitDelims ((s.toList).drop (pos + 6))
              (pos + 6) with
            | none => (s.toList).length
            | some e => e) - (pos + 6))) with
      | none =>
        dsimp only
        refine ⟨Or.inl rfl, ?_⟩
        intro n hn1 _
        constructor
        · intro h; omega
        · intro h; cases h
      | some v =>
        dsimp only
        constructor
        · by_cases hr : v ≤ 0 ∨ v > 300
          · rw [if_pos hr]; exact Or.inl rfl
          · rw [if_neg hr]; right; omega
        · intro n hn1 hn2
          by_cases hr : v ≤ 0 ∨ v > 300
          · rw [if_pos hr]
            constructor
            · intro h; omega
            · intro h
              have : v = n := by injection h
              omega
          · rw [if_neg hr]
            constructor
            · intro h; rw [h]
            · intro h; injection h

/-- C9 witness: `orbit=10` is in bounds, so the characterization yields the
equivalence at `n = 10`, and both sides hold concretely. -/
theorem parseOrbit_witness :
    (parseOrbit "orbit=10" = 10 ↔ orbitDirective "orbit=10" = some 10) :=
  (parseOrbit_range_characterization "orbit=10").2 10 (by decide) (by decide)

/-! ### C2 -/

/-- Repeated dequeue passes, fuel-bounded: the sequence of jobs successive
`dequeue` calls hand to the worker while pending rows remain. -/
def drainPending : Nat → List Row → List Row
  | 0, _ => []
  | n + 1, rows =>
    match dequeueStep false rows with
    | (DequeueResult.job r, rows2) => r :: drainPending n rows2
    | _ => []

theorem markProcessingRows_map_id (i : Int) (rows : List Row) :
    (markProcessingRows i rows).map Row.id = rows.map Row.id := by
  unfold markProcessingRows
  rw [List.map_map]
  apply List.map_congr_left
  intro a _
  simp only [Function.comp_apply]
  split <;> rfl

theorem pendingRows_markProcessing (i : Int) (rows : List Row) :
    pendingRows (markProcessingRows i rows)
      = (pendingRows rows).filter (fun x => !(decide (x.id = i))) := by
  induction rows with
  | nil => rfl
  | cons a t ih =>
    simp only [markProcessingRows, pendingRows, List.map_cons,
      List.filter_cons] at ih ⊢
    by_cases h : a.id = i
    · by_cases hp : a.status = Status.pending
      · simp [h, hp, ih]
      · simp [h, hp, ih]
    · by_cases hp : a.status = Status.pending
      · simp [h, hp, ih]
      · simp [h, hp, ih]

theorem filter_ne_id_eq_erase (l : List Row) (r : Row)
    (hids : (l.map Row.id).Nodup) (hr : r ∈ l) :
    l.filter (fun x => !(decide (x.id = r.id))) = l.erase r := by
  induction l with
  | nil => cases hr
  | cons a t ih =>
    rw [List.map_cons, List.nodup_cons] at hids
    obtain ⟨ha, ht⟩ := hids
    rcases List.mem_cons.mp hr with h | h
    · subst h
      rw [List.filter_cons, if_neg (by simp), List.erase_cons_head,
        List.filter_eq_self]
      intro x hx
      simp only [Bool.not_eq_eq_eq_not, Bool.not_true, decide_eq_false_iff_not]
      intro heq
      exact ha (heq ▸ List.mem_map_of_mem Row.id hx)
    · have hne : ¬(a.id = r.id) := by
        intro heq
        exact ha (heq ▸ List.mem_map_of_mem Row.id h)
      have hner : ¬(a == r) := by
        simp only [beq_iff_eq]
        intro heq
        exact hne (congrArg Row.id heq)
      rw [List.filter_cons, if_pos (by simp [hne]), List.erase_cons_tail hner,
        ih ht h]

theorem pendingRows_after_claim (rows : List Row) (r : Row)
    (hids : (rows.map Row.id).Nodup)
    (hsel : selectOldestPending rows = some r) :
    pendingRows (markProcessingRows r.id rows) = (pendingRows rows).erase r := by
  have hmem : r ∈ pendingRows rows :=
    List.argmin_mem (Option.mem_def.mpr hsel)
  have hsub : (pendingRows rows).map Row.id |>.Sublist (rows.map Row.id) :=
    List.Sublist.map Row.id (List.filter_sublist rows)
  rw [pendingRows_markProcessing,
    filter_ne_id_eq_erase (pendingRows rows) r (List.Nodup.sublist hsub hids)
      hmem]

theorem drainPending_perm_sorted :
    ∀ (n : Nat) (rows : List Row), (rows.map Row.id).Nodup →
      (pendingRows rows).length ≤ n →
      List.Perm ((drainPending n rows).map Row.created_at)
        ((pendingRows rows).map Row.created_at) ∧
      List.Sorted (· ≤ ·) ((drainPending n rows).map Row.created_at) := by
  intro n
  induction n with
  | zero =>
    intro rows _ hlen
    have hnil : pendingRows rows = [] :=
      List.length_eq_zero.mp (Nat.le_zero.mp hlen)
    simp [drainPending, hnil]
  | succ n ih =>
    intro rows hids hlen
    cases hsel : selectOldestPending rows with
    | none =>
      have hnil : pendingRows rows = [] := by
        have hnone : (pendingRows rows).argmin Row.created_at = none := hsel
        exact List.argmin_eq_none.mp hnone
      simp [drainPending, dequeueStep, hsel, hnil]
    | some r =>
      have hdq : dequeueStep false rows
          = (DequeueResult.job r, markProcessingRows r.id rows) := by
        simp [dequeueStep, hsel]
      have hdrain : drainPending (n + 1) rows
          = r :: drainPending n (markProcessingRows r.id rows) := by
        rw [drainPending, hdq]
      have hmem : r ∈ pendingRows rows :=
        List.argmin_mem (Option.mem_def.mpr hsel)
      have herase : pendingRows (markProcessingRows r.id rows)
          = (pendingRows rows).erase r :=
        pendingRows_after_claim rows r hids hsel
      have hids2 : ((markProcessingRows r.id rows).map Row.id).Nodup := by
        rw [markProcessingRows_map_id]
        exact hids
      have hlen2 : (pendingRows (markProcessingRows r.id rows)).length ≤ n := by
        rw [herase, List.length_erase, if_pos (by simp [hmem])]
        have hpos : 1 ≤ (pendingRows rows).length :=
          List.length_pos.mpr (List.ne_nil_of_mem hmem)
        omega
      obtain ⟨ihperm, ihsorted⟩ := ih (markProcessingRows r.id rows) hids2 hlen2
      rw [herase] at ihperm
      have hconsperm : List.Perm (pendingRows rows)
          (r :: (pendingRows rows).erase r) := List.perm_cons_erase hmem
      constructor
      · rw [hdrain, List.map_cons]
        have h1 : List.Perm
            (r.created_at ::
              (drainPending n (markProcessingRows r.id rows)).map Row.created_at)
            (r.created_at :: ((pendingRows rows).erase r).map Row.created_at) :=
          List.Perm.cons _ ihperm
        have h2 : List.Perm
            ((pendingRows rows).map Row.created_at)
            (r.created_at :: ((pendingRows rows).erase r).map Row.created_at) := by
          simpa using List.Perm.map Row.created_at hconsperm
        exact h1.trans h2.symm
      · rw [hdrain, List.map_cons]
        rw [List.sorted_cons]
        refine ⟨?_, ihsorted⟩
        intro b hb
        have hb2 : b ∈ ((pendingRows rows).erase r).map Row.created_at :=
          (List.Perm.mem_iff ihperm).mp hb
        obtain ⟨x, hx, hxb⟩ := List.mem_map.mp hb2
        have hx2 : x ∈ pendingRows rows := List.mem_of_mem_erase hx
        rw [← hxb]
        exact List.le_of_mem_argmin hx2 (Option.mem_def.mpr hsel)

/-- C2: FIFO with retry keeping original priority.
(1) Whenever a dequeue pass selects a job, that job is pending with the
smallest `created_at` among all pending rows.
(2) `markFailed` never changes any surviving row's id or `created_at` — in
particular a job it returns to `'pending'` keeps its original creation time
and hence its original relative position among pending jobs.
(3) Hence for any store with unique ids, draining it by repeated dequeues
yields the pending jobs' creation times as a sorted permutation — dequeue
order equals creation-time order (with distinct creation times, exactly the
creation-time-sorted sequence). -/
theorem dequeue_fifo_retry_priority :
    (∀ (rows : List Row) (r : Row), selectOldestPending rows = some r →
       r ∈ rows ∧ r.status = Status.pending ∧
       ∀ x ∈ rows, x.status = Status.pending →
         r.created_at ≤ x.created_at) ∧
    (∀ (rows : List Row) (i m : Int), ∀ x ∈ (markFailed i m rows).rows,
       ∃ y ∈ rows, x.id = y.id ∧ x.created_at = y.created_at) ∧
    (∀ (n : Nat) (rows : List Row), (rows.map Row.id).Nodup →
       (pendingRows rows).length ≤ n →
       List.Perm ((drainPending n rows).map Row.created_at)
         ((pendingRows rows).map Row.created_at) ∧
       List.Sorted (· ≤ ·) ((drainPending n rows).map Row.created_at)) := by
  refine ⟨?_, ?_, drainPending_perm_sorted⟩
  · intro rows r hsel
    have hmem : r ∈ pendingRows rows :=
      List.argmin_mem (Option.mem_def.mpr hsel)
    have hmem' := List.mem_filter.mp hmem
    have hstat : r.status = Status.pending := by simpa using hmem'.2
    refine ⟨hmem'.1, hstat, ?_⟩
    intro x hx hxstat
    have hxmem : x ∈ pendingRows rows := by
      simp [pendingRows, List.mem_filter, hx, hxstat]
    exact List.le_of_mem_argmin hxmem (Option.mem_def.mpr hsel)
  · intro rows i m x hx
    unfold markFailed at hx
    cases hfind : rows.find? (fun r => decide (r.id = i)) with
    | none =>
      rw [hfind] at hx
      exact ⟨x, hx, rfl, rfl⟩
    | some w =>
      rw [hfind] at hx
      dsimp only at hx
      by_cases hge : w.retry_count ≥ m
      · rw [if_pos hge] at hx
        exact ⟨x, (List.mem_filter.mp hx).1, rfl, rfl⟩
      · rw [if_neg hge] at hx
        simp only [List.mem_map] at hx
        obtain ⟨y, hy, hyx⟩ := hx
        refine ⟨y, hy, ?_, ?_⟩
        · rw [← hyx]; split <;> rfl
        · rw [← hyx]; split <;> rfl

/-- C2 witness: draining the concrete two-job store yields the pending
creation times as a sorted permutation. -/
theorem dequeue_fifo_witness :
    List.Perm ((drainPending 2 traceRows).map Row.created_at)
      ((pendingRows traceRows).map Row.created_at) ∧
    List.Sorted (· ≤ ·) ((drainPending 2 traceRows).map Row.created_at) :=
  dequeue_fifo_retry_priority.2.2 2 traceRows (by decide) (by decide)

end PoomerVmax
